import Mathlib

/-!
Verification of the text/audio preprocessing pipeline of the
Memotag voice-clone system.

The Python sources are shallowly embedded:
* strings become `List Char` (one entry per Unicode code point, matching
  Python `len`/indexing semantics);
* audio waveforms become `List ℚ` (each rational stands for one
  floating-point sample; the claims under study only involve comparisons
  and arithmetic whose float/rational verdicts agree on the relevant
  inputs);
* calls into `scipy.signal.filtfilt` and the square root inside `np.std`
  are represented by function parameters (`filt`, `sqrt`), since the
  properties at issue hold for every possible behaviour of those
  library routines;
* a `failAt : Option ℕ` oracle marks which statement of a `try` block
  raises (`none` = no exception), so the `except` fallback branches of
  the Python code are part of the embedded functions.
-/

namespace VoiceClone

/-! ## Character classes (Python regex semantics, restricted to the
code points the pipeline distinguishes) -/

/-- Python `\s` / `str.isspace` on the ASCII range (space, tab, newline,
carriage return, form feed, vertical tab). -/
def pyIsSpace (c : Char) : Bool :=
  c = ' ' || c = '\t' || c = '\n' || c = '\r' || c = '\x0c' || c = '\x0b'

/-- Devanagari block `ऀ-ॿ`, the class used by `hindi_pattern`. -/
def isDeva (c : Char) : Bool :=
  0x0900 ≤ c.toNat && c.toNat ≤ 0x097F

/-- Latin letters `[a-zA-Z]`, the class used by `english_pattern`. -/
def isLatin (c : Char) : Bool :=
  ('a' ≤ c && c ≤ 'z') || ('A' ≤ c && c ≤ 'Z')

/-- The range `[अ-ह]` (`अ-ह`) used by the Hinglish spacing fixes. -/
def isDevaLetter (c : Char) : Bool :=
  0x0905 ≤ c.toNat && c.toNat ≤ 0x0939

/-- Python `\w` as it matters to this pipeline: ASCII alphanumerics,
underscore, and the Devanagari block (the only non-ASCII code points the
classifier distinguishes; other Unicode word characters never influence
any language tag because the tag only tests `isDeva`/`isLatin`). -/
def pyIsWord (c : Char) : Bool :=
  isLatin c || c.isDigit || c = '_' || isDeva c

/-! ## Python string helpers -/

/-- Python `str.strip()`: drop leading and trailing whitespace. -/
def pyStrip (l : List Char) : List Char :=
  ((l.dropWhile pyIsSpace).reverse.dropWhile pyIsSpace).reverse

/-- `re.sub(r'\s+', ' ', ·)`: collapse each maximal whitespace run to a
single space.  The Boolean argument records whether the previous
character was part of a whitespace run. -/
def collapseWsAux : Bool → List Char → List Char
  | _, [] => []
  | prev, c :: cs =>
    if pyIsSpace c then
      if prev then collapseWsAux true cs else ' ' :: collapseWsAux true cs
    else c :: collapseWsAux false cs

def collapseWs (l : List Char) : List Char := collapseWsAux false l

/-- Python `str.split()` (no argument): split on whitespace runs, no
empty tokens. -/
def splitWsAux : List Char → List Char → List (List Char)
  | acc, [] => if acc = [] then [] else [acc.reverse]
  | acc, c :: cs =>
    if pyIsSpace c then
      if acc = [] then splitWsAux [] cs else acc.reverse :: splitWsAux [] cs
    else splitWsAux (c :: acc) cs

def splitWs (l : List Char) : List (List Char) := splitWsAux [] l

/-! ## ScriptSegmenter: `detect_text_language_segments`

Two variants exist in the source.  `MultilingualVoiceCloner` (also
inherited by `WebSocketFixedHinglishCloner`) first strips a token down to
word/Devanagari characters and defaults unclassified tokens to `"hi"`;
`FixedRealTimeHinglishVoiceCloner` searches the raw token and tags
unclassified tokens `"unknown"`. -/

/-- `re.sub(r'[^\wऀ-ॿ]', '', word)`. -/
def cleanWord (w : List Char) : List Char :=
  w.filter (fun c => pyIsWord c || isDeva c)

/-- Tag assignment of `MultilingualVoiceCloner.detect_text_language_segments`. -/
def mlTag (w : List Char) : String :=
  let cw := cleanWord w
  if cw.any isDeva then "hi"
  else if cw.any isLatin then "en"
  else "hi"

/-- `MultilingualVoiceCloner.detect_text_language_segments`. -/
def detectSegmentsML (l : List Char) : List (List Char × String) :=
  (splitWs l).map (fun w => (w, mlTag w))

/-- Tag assignment of
`FixedRealTimeHinglishVoiceCloner.detect_text_language_segments`
(searches the raw word; unclassified tokens become `"unknown"`). -/
def rtTag (w : List Char) : String :=
  if w.any isDeva then "hi"
  else if w.any isLatin then "en"
  else "unknown"

/-- `FixedRealTimeHinglishVoiceCloner.detect_text_language_segments`. -/
def detectSegmentsRT (l : List Char) : List (List Char × String) :=
  (splitWs l).map (fun w => (w, rtTag w))

/-- `sum(1 for _, lang in segments if lang == "hi") / len(segments) if
segments else 0` — the aggregate Hindi ratio computed at every call
site of the segmenter. -/
def hindiRatio (segs : List (List Char × String)) : ℚ :=
  if segs = [] then 0
  else ((segs.countP (fun p => p.2 == "hi")) : ℚ) / (segs.length : ℚ)

def hindiRatioML (l : List Char) : ℚ := hindiRatio (detectSegmentsML l)

def hindiRatioRT (l : List Char) : ℚ := hindiRatio (detectSegmentsRT l)

/-- `primary_language = "hi" if hindi_ratio > 0.3 else "en"`
(`clone_voice_multilingual`, computed over the raw input text with the
multilingual segmenter). -/
def primaryLanguageML (l : List Char) : String :=
  if hindiRatioML l > 3/10 then "hi" else "en"

/-- The same selection in `clone_voice_realtime`, which uses the
realtime segmenter. -/
def primaryLanguageRT (l : List Char) : String :=
  if hindiRatioRT l > 3/10 then "hi" else "en"

/-! ## Regex substitution helpers used by the canonicalizers.

Each helper follows Python `re.sub` scanning semantics: the scan moves
left to right, a match consumes its whole matched span, and scanning
resumes immediately after the consumed span. -/

/-- Dropping a prefix never lengthens a list. -/
theorem lengthDropWhileLe (p : Char → Bool) (l : List Char) :
    (l.dropWhile p).length ≤ l.length :=
  (List.dropWhile_suffix p).length_le

/-- `re.sub(r'\.(?=\s)', ' ', ·)` — a period directly followed by
whitespace becomes a space (the lookahead does not consume the space). -/
def subDotSpace : List Char → List Char
  | [] => []
  | [c] => [c]
  | c₁ :: c₂ :: rest =>
    if c₁ = '.' && pyIsSpace c₂ then ' ' :: subDotSpace (c₂ :: rest)
    else c₁ :: subDotSpace (c₂ :: rest)

/-- `re.sub(r'\.$', '', ·)` — Python `$` also matches just before a
string-final newline. -/
def subDotEnd (l : List Char) : List Char :=
  match l.reverse with
  | '.' :: rest => rest.reverse
  | '\n' :: '.' :: rest => ('\n' :: rest).reverse
  | _ => l

/-- `re.sub(r'[x]{2,}', x, ·)`: collapse each maximal run of `x` of
length ≥ 2 to a single `x` (runs of length 1 are left alone, so the
net effect collapses every run to one occurrence). -/
def collapseRunsAux (x : Char) : Bool → List Char → List Char
  | _, [] => []
  | prev, c :: cs =>
    if c = x then
      if prev then collapseRunsAux x true cs else x :: collapseRunsAux x true cs
    else c :: collapseRunsAux x false cs

def collapseRuns (x : Char) (l : List Char) : List Char := collapseRunsAux x false l

/-- `re.sub(r'(P₁)(\s{2,})(P₂)', r'\1 \3', ·)`: a `P₁` character, two or
more whitespace characters, and a `P₂` character collapse to
`P₁ ' ' P₂`. -/
def fixGap (p₁ p₂ : Char → Bool) : List Char → List Char
  | [] => []
  | c :: cs =>
    if p₁ c then
      match _h : cs.dropWhile pyIsSpace with
      | d :: rest =>
        if 2 ≤ (cs.takeWhile pyIsSpace).length && p₂ d then
          c :: ' ' :: d :: fixGap p₁ p₂ rest
        else c :: fixGap p₁ p₂ cs
      | [] => c :: fixGap p₁ p₂ cs
    else c :: fixGap p₁ p₂ cs
  termination_by l => l.length
  decreasing_by
    · simp only [List.length_cons]
      have h₁ : (cs.dropWhile pyIsSpace).length ≤ cs.length :=
        lengthDropWhileLe pyIsSpace cs
      rw [_h] at h₁
      simp only [List.length_cons] at h₁
      omega
    all_goals simp

/-- `re.sub(r'(P)\s*([^\s])', r'\1 \2', ·)`: ensure exactly one space
after each `P` character that is eventually followed by a non-space
character. -/
def fixAfterPunct (p : Char → Bool) : List Char → List Char
  | [] => []
  | c :: cs =>
    if p c then
      match _h : cs.dropWhile pyIsSpace with
      | d :: rest => c :: ' ' :: d :: fixAfterPunct p rest
      | [] => c :: fixAfterPunct p cs
    else c :: fixAfterPunct p cs
  termination_by l => l.length
  decreasing_by
    · simp only [List.length_cons]
      have h₁ : (cs.dropWhile pyIsSpace).length ≤ cs.length :=
        lengthDropWhileLe pyIsSpace cs
      rw [_h] at h₁
      simp only [List.length_cons] at h₁
      omega
    all_goals simp

/-- `re.sub(r'([,.])([^\s])', r'\1 \2', ·)`. -/
def fixCommaPeriodSpace : List Char → List Char
  | [] => []
  | [c] => [c]
  | c :: d :: rest =>
    if (c = ',' || c = '.') && !pyIsSpace d then
      c :: ' ' :: d :: fixCommaPeriodSpace rest
    else c :: fixCommaPeriodSpace (d :: rest)
  termination_by l => l.length

/-- `re.sub(r'(P₁)(P₂)', r'\1 \2', ·)` — insert a space between two
directly adjacent characters of the given classes. -/
def fixAdjacent (p₁ p₂ : Char → Bool) : List Char → List Char
  | [] => []
  | [c] => [c]
  | c :: d :: rest =>
    if p₁ c && p₂ d then c :: ' ' :: d :: fixAdjacent p₁ p₂ rest
    else c :: fixAdjacent p₁ p₂ (d :: rest)
  termination_by l => l.length

/-! ## TextCanonicalizer: `optimize_text_for_voice_cloning` -/

/-- Body of `MultilingualVoiceCloner.optimize_text_for_voice_cloning`
after the short-text guard: whitespace normalization, ratio detection,
global punctuation removal, and the Hinglish / near-monolingual branch,
followed by the shared spacing fix and the final whitespace collapse
(which, unlike the first one, is not preceded by `strip`). -/
def optimizeCoreML (l : List Char) : List Char :=
  let t₁ := collapseWs (pyStrip l)
  let ratio := hindiRatio (detectSegmentsML t₁)
  let t₂ := t₁.map (fun c => if c = '!' || c = '।' || c = '?' then ' ' else c)
  let t₃ := t₂.map (fun c => if c = ',' || c = ';' || c = ':' then ' ' else c)
  let t₄ := subDotSpace t₃
  let t₅ := subDotEnd t₄
  let t₆ := t₅.filter (fun c => !(c = '"' || c = '\'' || c = '`'))
  let t₇ := t₆.map (fun c => if c = '-' || c = '–' || c = '—' then ' ' else c)
  let t₈ :=
    if (1 : ℚ)/5 < ratio ∧ ratio < (4 : ℚ)/5 then
      let u₁ := collapseRuns ',' t₇
      let u₂ := collapseRuns '.' u₁
      let u₃ := fixGap isLatin isDevaLetter u₂
      fixGap isDevaLetter isLatin u₃
    else
      let u₁ := collapseRuns '।' t₇
      let u₂ := collapseRuns '.' u₁
      fixAfterPunct (fun c => c = '।' || c = '.' || c = '!' || c = '?') u₂
  let t₉ := fixCommaPeriodSpace t₈
  collapseWs t₉

/-- `MultilingualVoiceCloner.optimize_text_for_voice_cloning`: inputs of
at most 20 code points short-circuit to `text.strip()`. -/
def optimizeTextML (l : List Char) : List Char :=
  if l.length ≤ 20 then pyStrip l else optimizeCoreML l

/-- String-level wrapper for the multilingual canonicalizer. -/
def optimizeText (s : String) : String :=
  String.mk (optimizeTextML s.toList)

/-- Shared body of the two ultra-minimal canonicalizers
(`WebSocketFixedHinglishCloner.optimize_text_for_voice_cloning` and
`FixedRealTimeHinglishVoiceCloner.optimize_text_for_voice_cloning`):
for mixed content (`0.1 < ratio < 0.9`) remove `[!।?]+`, put a space
between directly adjacent Devanagari/Latin letters, and re-collapse
whitespace; otherwise leave the normalized text alone. -/
def ultraMinimalCore (ratio : ℚ) (t₁ : List Char) : List Char :=
  if (1 : ℚ)/10 < ratio ∧ ratio < (9 : ℚ)/10 then
    let u₁ := t₁.filter (fun c => !(c = '!' || c = '।' || c = '?'))
    let u₂ := fixAdjacent isDevaLetter isLatin u₁
    let u₃ := fixAdjacent isLatin isDevaLetter u₂
    collapseWs (pyStrip u₃)
  else t₁

/-- `WebSocketFixedHinglishCloner.optimize_text_for_voice_cloning`
(ratio via the inherited multilingual segmenter). -/
def optimizeTextWS (l : List Char) : List Char :=
  let t₁ := collapseWs (pyStrip l)
  ultraMinimalCore (hindiRatio (detectSegmentsML t₁)) t₁

/-- `FixedRealTimeHinglishVoiceCloner.optimize_text_for_voice_cloning`
(ratio via the realtime segmenter). -/
def optimizeTextRT (l : List Char) : List Char :=
  let t₁ := collapseWs (pyStrip l)
  ultraMinimalCore (hindiRatio (detectSegmentsRT t₁)) t₁

/-! ## Chunk planning: `_split_text_into_chunks` -/

/-- The sentence-ending set `[.!?।]` used by the streaming splitter. -/
def isSentencePunct (c : Char) : Bool :=
  c = '.' || c = '!' || c = '?' || c = '।'

/-- `re.split(r'[.!?।]+', ·)`: a maximal run of sentence punctuation is
one separator; empty pieces are kept (the caller drops them). -/
def splitPunctAux : List Char → List Char → List (List Char)
  | acc, [] => [acc.reverse]
  | acc, c :: cs =>
    if isSentencePunct c then
      acc.reverse :: splitPunctAux [] (cs.dropWhile isSentencePunct)
    else splitPunctAux (c :: acc) cs
  termination_by _ l => l.length
  decreasing_by
    · have h₁ : (cs.dropWhile isSentencePunct).length ≤ cs.length :=
        lengthDropWhileLe isSentencePunct cs
      simp only [List.length_cons]
      omega
    · simp

/-- `FixedRealTimeHinglishVoiceCloner._split_text_into_chunks`: split on
sentence punctuation, strip each piece, drop empties. -/
def splitTextIntoChunks (l : List Char) : List (List Char) :=
  ((splitPunctAux [] l).map pyStrip).filter (· ≠ [])

/-! ## Waveform arithmetic (numpy operations over rational samples) -/

/-- `np.mean` (`np.mean([])` yields NaN with a warning; the call sites
reached with an empty array are modelled as raising later, so `0` here
is never observable). -/
def npMean (l : List ℚ) : ℚ :=
  if l = [] then 0 else l.sum / (l.length : ℚ)

/-- `np.max` of a nonempty array (all call sites guard emptiness, which
in numpy raises and is modelled as a structural raise). -/
def npMax (l : List ℚ) : ℚ :=
  match l with
  | [] => 0
  | h :: t => t.foldl max h

/-- `np.max(np.abs(·))`. -/
def maxAbs (l : List ℚ) : ℚ := npMax (l.map (|·|))

/-- Sum of squares, `np.sum(window**2)`. -/
def sumSq (l : List ℚ) : ℚ := (l.map (fun x => x ^ 2)).sum

/-- Population variance, the quantity whose square root `np.std`
returns. -/
def pvar (l : List ℚ) : ℚ :=
  npMean (l.map (fun x => (x - npMean l) ^ 2))

/-- `np.clip` on one sample: `minimum(maximum(x, lo), hi)`. -/
def clipQ (lo hi x : ℚ) : ℚ := min hi (max lo x)

/-- `np.clip` on a waveform. -/
def clipAll (lo hi : ℚ) (l : List ℚ) : List ℚ := l.map (clipQ lo hi)

/-- `x - np.mean(x)` — DC-offset removal. -/
def dcRemove (l : List ℚ) : List ℚ := l.map (· - npMean l)

/-- `np.percentile(·, 99)` with numpy's default linear interpolation:
sort ascending, take the value at fractional rank `(n-1)·99/100`. -/
def percentile99 (l : List ℚ) : ℚ :=
  let s := l.insertionSort (· ≤ ·)
  let n := l.length
  let pos : ℚ := ((n - 1 : ℕ) : ℚ) * 99 / 100
  let k : ℕ := ⌊pos⌋.toNat
  let lo := s.getD k 0
  let hi := s.getD (min (k + 1) (n - 1)) 0
  lo + (pos - (k : ℚ)) * (hi - lo)

/-- `np.clip(audio, -q99, q99)` where `q99` is the 99th percentile of
the absolute amplitudes (outlier spike removal in
`_clean_audio_artifacts`). -/
def percentileClip (l : List ℚ) : List ℚ :=
  let q := percentile99 (l.map (|·|))
  clipAll (-q) q l

/-- `np.linspace(0, 1, n)[i]` (numpy returns `[0.]` for `n = 1`). -/
def linUp (n i : ℕ) : ℚ :=
  if n = 1 then 0 else (i : ℚ) / ((n - 1 : ℕ) : ℚ)

/-- `np.linspace(1, 0, n)[j]` (numpy returns `[1.]` for `n = 1`). -/
def linDown (n j : ℕ) : ℚ :=
  if n = 1 then 1 else ((n - 1 - j : ℕ) : ℚ) / ((n - 1 : ℕ) : ℚ)

/-- Quadratic (`np.power(..., 2)`) fade-in over the first `fs` samples
followed by quadratic fade-out over the last `fs` samples, as in
`_clean_audio_artifacts`. -/
def fadeQuad (fs : ℕ) (a : List ℚ) : List ℚ :=
  let b := a.mapIdx (fun i x => if i < fs then x * (linUp fs i) ^ 2 else x)
  b.mapIdx (fun i x =>
    if a.length - fs ≤ i then x * (linDown fs (i - (a.length - fs))) ^ 2 else x)

/-- Linear fade-in/fade-out over `fs` samples, as in the minimal
cleanups. -/
def fadeLinear (fs : ℕ) (a : List ℚ) : List ℚ :=
  let b := a.mapIdx (fun i x => if i < fs then x * linUp fs i else x)
  b.mapIdx (fun i x =>
    if a.length - fs ≤ i then x * linDown fs (i - (a.length - fs)) else x)

/-- The fade step of `_clean_audio_artifacts`:
`fade_samples = min(int(0.03*22050), len(audio)//15)` (i.e. `min 661
(len/15)`), applied only when positive. -/
def fadeInOut (a : List ℚ) : List ℚ :=
  let fs := min 661 (a.length / 15)
  if fs > 0 then fadeQuad fs a else a

/-- The energy-based boundary trim of `_clean_audio_artifacts`:
20 ms windows (`window_size = int(0.02*22050) = 441`) hopped by
`window_size // 2 = 220`; keep from the first to one-past-the-last
window whose energy exceeds 1 % of the maximum window energy.  Python's
`range(0, len-441, 220)` yields `⌈(len-441)/220⌉` window starts;
`start_idx = v₀*441//2` and `end_idx = min((v_l+2)*441//2, len)` use
integer division after the product, exactly as the source does.
The caller guarantees a nonempty window list (otherwise `np.max`
raises, which the caller models as a structural raise). -/
def energyTrim (a : List ℚ) : List ℚ :=
  let n := a.length
  let count := (n - 441 + 219) / 220
  let energy := (List.range count).map (fun i => sumSq ((a.drop (i * 220)).take 441))
  let m := npMax energy
  let valid := (List.range count).filter
    (fun i => sumSq ((a.drop (i * 220)).take 441) > m / 100)
  match valid.head?, valid.getLast? with
  | some v₀, some vl =>
    let s := v₀ * 441 / 2
    let e := min ((vl + 2) * 441 / 2) n
    (a.drop s).take (e - s)
  | _, _ => a

/-! ## `librosa.effects.trim`

`trim(y, top_db=T)` computes per-frame mean-square energy (frame length
2048, hop 512, centred — i.e. 1024 zeros padded on each side, giving
`len//512 + 1` frames), converts to dB relative to the maximum frame
energy clamped below by `amin = 1e-10`, and keeps the span of frames
strictly above `-T` dB.  For positive quantities
`10·log10(a) - 10·log10(b) > -T  ↔  a² · 10^(2T/10) > b²`, which lets
the dB comparison be stated exactly over ℚ whenever `T` is a multiple
of 5 (here `T ∈ {20, 25, 30}`). -/

def aminQ : ℚ := 1 / 10 ^ 10

def trimPadded (a : List ℚ) : List ℚ :=
  List.replicate 1024 0 ++ a ++ List.replicate 1024 0

/-- Mean-square energy of trim frame `i`. -/
def trimMse (a : List ℚ) (i : ℕ) : ℚ :=
  sumSq (((trimPadded a).drop (i * 512)).take 2048) / 2048

def trimNFrames (a : List ℚ) : ℕ := a.length / 512 + 1

/-- `librosa.effects.trim(·, top_db=topDb)[0]`. -/
def librosaTrim (topDb : ℕ) (a : List ℚ) : List ℚ :=
  let nf := trimNFrames a
  let mses := (List.range nf).map (trimMse a)
  let ref := npMax mses
  let nonSilent := (List.range nf).filter
    (fun i => (max aminQ (trimMse a i)) ^ 2 * 10 ^ (2 * topDb / 10) > (max aminQ ref) ^ 2)
  match nonSilent.head?, nonSilent.getLast? with
  | some f₀, some fl =>
    let s := f₀ * 512
    let e := min a.length ((fl + 1) * 512)
    (a.drop s).take (e - s)
  | _, _ => []

/-! ## AudioSanitizer passes

Each pass wraps its body in `try/except`; the `except` branch returns
the *current binding* of `audio`, i.e. the value produced by the steps
already completed, not the original argument.  `failAt = some k` models
statement `k` of the body raising; `none` means no exception beyond the
structural ones (`filtfilt` raises when the input is not longer than its
pad length `3·max(len(a),len(b)) = 9`; `np.max` and `np.percentile`
raise on empty arrays). -/

/-- `MultilingualVoiceCloner._clean_audio_artifacts`.
Statements, in source order: (1) cast/DC removal, (2) `filtfilt`
high-pass (raises for length ≤ 9), (3) windowed-energy computation and
`np.max(energy)` (raises when no full window fits, length ≤ 441),
(4) 99th-percentile outlier clip (raises when the trimmed span is
empty), (5) fade-in/fade-out. -/
def cleanAudioArtifacts (filt : List ℚ → List ℚ) (failAt : Option ℕ)
    (audio : List ℚ) : List ℚ :=
  if failAt = some 1 then audio
  else
    let a₁ := dcRemove audio
    if failAt = some 2 || a₁.length ≤ 9 then a₁
    else
      let a₂ := filt a₁
      if failAt = some 3 || a₂.length ≤ 441 then a₂
      else
        let a₃ := energyTrim a₂
        if failAt = some 4 || a₃.isEmpty then a₃
        else
          let a₄ := percentileClip a₃
          if failAt = some 5 then a₄ else fadeInOut a₄

/-- The successive intermediate values of `_clean_audio_artifacts`:
stage `k` is the waveform after the first `k` processing steps. -/
def cleanStage (filt : List ℚ → List ℚ) : ℕ → List ℚ → List ℚ
  | 0, a => a
  | 1, a => dcRemove a
  | 2, a => filt (dcRemove a)
  | 3, a => energyTrim (filt (dcRemove a))
  | 4, a => percentileClip (energyTrim (filt (dcRemove a)))
  | _ + 5, a => fadeInOut (percentileClip (energyTrim (filt (dcRemove a))))

/-- `MultilingualVoiceCloner._final_audio_cleanup`.
Statements: (1) 4-σ outlier clip (`sqrt` stands for the square root
inside `np.std`), (2) inner-`try` high-pass whose failure only skips the
filter, (3) `np.max(np.abs(·))` peak read (raises on empty), (4) peak
normalization to 0.95, (5) `np.nan_to_num` (identity on rational
samples).  The `except` fallback is `np.clip(audio, -1.0, 1.0)` applied
to the current binding. -/
def finalCleanupRest (failAt : Option ℕ) (a₂ : List ℚ) : List ℚ :=
  if failAt = some 3 || a₂.isEmpty then clipAll (-1) 1 a₂
  else
    let p := maxAbs a₂
    if failAt = some 4 then clipAll (-1) 1 a₂
    else
      let a₃ := if p > 95 / 100 then a₂.map (· * ((95 / 100) / p)) else a₂
      if failAt = some 5 then clipAll (-1) 1 a₃ else a₃

def finalAudioCleanup (sqrt : ℚ → ℚ) (filt : List ℚ → List ℚ)
    (failAt : Option ℕ) (audio : List ℚ) : List ℚ :=
  if failAt = some 1 then clipAll (-1) 1 audio
  else
    let m := npMean audio
    let σ := sqrt (pvar audio)
    let a₁ := audio.map (clipQ (m - 4 * σ) (m + 4 * σ))
    let a₂ := if failAt = some 2 || a₁.length ≤ 9 then a₁ else filt a₁
    finalCleanupRest failAt a₂

/-- The sanitization pipeline named by the spec: raw synthesis output
through `_clean_audio_artifacts`, then `_final_audio_cleanup`. -/
def sanitizePipeline (sqrt : ℚ → ℚ) (filt₁ filt₂ : List ℚ → List ℚ)
    (fail₁ fail₂ : Option ℕ) (audio : List ℚ) : List ℚ :=
  finalAudioCleanup sqrt filt₂ fail₂ (cleanAudioArtifacts filt₁ fail₁ audio)

/-- `WebSocketFixedHinglishCloner._minimal_audio_cleanup`.  `none`
models Python `None`; the `is None`/`len == 0` guard precedes the `try`
block.  Statements: (1) `librosa.effects.trim(·, top_db=20)`,
(2) 0.95 peak normalization, (3) 1 ms linear fade when the result is
longer than 1000 samples. -/
def wsMinimalAudioCleanup (failAt : Option ℕ) (audio : Option (List ℚ)) :
    Option (List ℚ) :=
  match audio with
  | none => none
  | some a =>
    if a.length = 0 then some a
    else some (
      if failAt = some 1 then a
      else
        let a₁ := librosaTrim 20 a
        if failAt = some 2 then a₁
        else
          let a₂ := if maxAbs a₁ > 0 then a₁.map (· / maxAbs a₁ * (95 / 100)) else a₁
          if failAt = some 3 then a₂
          else if a₂.length > 1000 then
            fadeLinear (min 22 (a₂.length / 100)) a₂
          else a₂)

/-- `FixedRealTimeHinglishVoiceCloner._minimal_audio_cleanup`.  In this
variant the `if len(audio) > 1000:` guard of the fade was absorbed into
the preceding comment line, so the fade block belongs to the
`if np.max(np.abs(audio)) > 0:` branch and runs (with
`fade_samples = min(22, len//100)`) whenever the peak is positive. -/
def rtMinimalAudioCleanup (failAt : Option ℕ) (audio : Option (List ℚ)) :
    Option (List ℚ) :=
  match audio with
  | none => none
  | some a =>
    if a.length = 0 then some a
    else some (
      if failAt = some 1 then a
      else
        let a₁ := librosaTrim 20 a
        if failAt = some 2 then a₁
        else if maxAbs a₁ > 0 then
          let a₂ := a₁.map (· / maxAbs a₁ * (95 / 100))
          fadeLinear (min 22 (a₂.length / 100)) a₂
        else a₁)

/-- The `except` fallback of `_minimal_final_cleanup`: re-normalize
the current binding to 0.95 peak; return it unchanged only when it is
empty or silent. -/
def minimalFallback (x : List ℚ) : List ℚ :=
  if x.length > 0 then
    if maxAbs x > 0 then x.map (· / maxAbs x * (95 / 100)) else x
  else x

/-- `MultilingualVoiceCloner._minimal_final_cleanup`.  `try` body, in
source order: the zero-length early return, then (1) the opening
statements up to and including the `np.mean` DC removal, (2) the peak
read and 0.95 normalization, (3) `librosa.effects.trim(·, top_db=25)`,
(4) the 5 ms (110-sample) linear fade when the result is longer than
220 samples.  `failAt = some k` models statement `k` raising; unlike
the other passes, the `except` branch does not return the current
binding as-is but `minimalFallback` of it. -/
def minimalFinalCleanup (failAt : Option ℕ) (audio : List ℚ) : List ℚ :=
  if failAt = some 1 then minimalFallback audio
  else if audio.length = 0 then audio
  else
    let a₁ := dcRemove audio
    if failAt = some 2 then minimalFallback a₁
    else
      let a₂ := if maxAbs a₁ > 0 then a₁.map (· / maxAbs a₁ * (95 / 100)) else a₁
      if failAt = some 3 then minimalFallback a₂
      else
        let a₃ := librosaTrim 25 a₂
        if failAt = some 4 then minimalFallback a₃
        else if a₃.length > 220 then fadeLinear 110 a₃ else a₃

/-- The successive intermediate values of `_minimal_final_cleanup`:
stage `k` is the waveform after the first `k` processing steps (stage
4 includes the length-conditional fade, as in the source). -/
def minimalFinalStage : ℕ → List ℚ → List ℚ
  | 0, a => a
  | 1, a => dcRemove a
  | 2, a =>
    let a₁ := dcRemove a
    if maxAbs a₁ > 0 then a₁.map (· / maxAbs a₁ * (95 / 100)) else a₁
  | 3, a =>
    let a₁ := dcRemove a
    librosaTrim 25 (if maxAbs a₁ > 0 then a₁.map (· / maxAbs a₁ * (95 / 100)) else a₁)
  | _ + 4, a =>
    let a₁ := dcRemove a
    let a₃ := librosaTrim 25
      (if maxAbs a₁ > 0 then a₁.map (· / maxAbs a₁ * (95 / 100)) else a₁)
    if a₃.length > 220 then fadeLinear 110 a₃ else a₃

/-- The successive intermediate values of the websocket
`_minimal_audio_cleanup` body: trim, 0.95 normalization, conditional
1 ms fade. -/
def wsMinimalStage : ℕ → List ℚ → List ℚ
  | 0, a => a
  | 1, a => librosaTrim 20 a
  | 2, a =>
    let a₁ := librosaTrim 20 a
    if maxAbs a₁ > 0 then a₁.map (· / maxAbs a₁ * (95 / 100)) else a₁
  | _ + 3, a =>
    let a₁ := librosaTrim 20 a
    let a₂ := if maxAbs a₁ > 0 then a₁.map (· / maxAbs a₁ * (95 / 100)) else a₁
    if a₂.length > 1000 then fadeLinear (min 22 (a₂.length / 100)) a₂ else a₂

/-! ## ReferenceAudioPreparer -/

/-- `MultilingualVoiceCloner.preprocess_audio` after loading/resampling:
peak-normalize to 80 % of full scale unless the waveform is silent,
then `librosa.effects.trim(·, top_db=30)`. -/
def preprocessAudio (audio : List ℚ) : List ℚ :=
  let a₁ := if maxAbs audio > 0 then audio.map (· / maxAbs audio * (8 / 10)) else audio
  librosaTrim 30 a₁

/-- The in-line reference normalization of
`WebSocketFixedHinglishCloner.clone_voice_multilingual` (and the
realtime cloner): `if np.max(np.abs(r)) > 0: r = r/np.max(np.abs(r))*0.8`. -/
def wsReferencePrep (a : List ℚ) : List ℚ :=
  if maxAbs a > 0 then a.map (· / maxAbs a * (8 / 10)) else a

/-! ## SynthesisOrchestrator: calls into the external Synthesizer -/

/-- One invocation of the external Synthesizer, with the argument
fields of the consumed contract
`synthesize(text, reference_audio_path, language, split_sentences)`. -/
structure TTSCall where
  text : String
  speakerWav : String
  language : String
  splitSentences : Bool

/-- The Synthesizer invocations of
`MultilingualVoiceCloner.clone_voice_multilingual`: exactly one call.
All three call sites (enhanced-parameter, basic-fallback, and
no-speed-attribute) spread the same `tts_params` dictionary, whose
`"split_sentences"` entry is `False`; the sites differ only in extra
keyword arguments outside the Synthesizer contract. -/
def mlTTSCalls (text : List Char) : List TTSCall :=
  [{ text := String.mk (optimizeTextML text)
     speakerWav := "temp_speaker_multilingual.wav"
     language := primaryLanguageML text
     splitSentences := false }]

/-- The single Synthesizer invocation of
`WebSocketFixedHinglishCloner.clone_voice_multilingual`. -/
def wsTTSCalls (text : List Char) : List TTSCall :=
  [{ text := String.mk (optimizeTextWS text)
     speakerWav := "temp_speaker_websocket.wav"
     language := primaryLanguageML text
     splitSentences := false }]

/-- The Synthesizer invocations of
`FixedRealTimeHinglishVoiceCloner.clone_voice_realtime`: one call per
non-blank chunk of the streaming plan (`hashMod` stands for
`hash(text) % 10000` in the transient file name, which depends on the
interpreter's hash seed). -/
def rtTTSCalls (hashMod : ℕ) (text : List Char) : List TTSCall :=
  ((splitTextIntoChunks (optimizeTextRT text)).filter (fun c => pyStrip c ≠ [])).map
    (fun c =>
      { text := String.mk c
        speakerWav := "temp_speaker_realtime_" ++ toString hashMod ++ ".wav"
        language := primaryLanguageRT text
        splitSentences := false })

/-! ## SynthesisOrchestrator: transient speaker-file lifetime

The three synthesis entry points share the shape

```
sf.write(temp_speaker_path, ...)      # file created
try:  <body>                          # may raise / be abandoned anywhere
finally:
    if os.path.exists(temp_speaker_path): os.remove(temp_speaker_path)
<post>                                # runs only when the body completed
```

A session run is modelled by the sequence of file events it performs:
the body and post-`finally` statements touch no files, an
`abortAt = some k` oracle cuts the body after `k` completed statements
(covering both an exception and, for the async generator, abandonment
at a `yield`), and Python guarantees the `finally` clause runs on every
exit. -/

inductive FileEv where
  | create : FileEv
  | remove : FileEv
deriving DecidableEq

/-- Whether the transient speaker file exists after a sequence of file
events (it does not exist before the session). -/
def fileExistsAfter (evs : List FileEv) : Bool :=
  evs.foldl (fun _ e => match e with | .create => true | .remove => false) false

/-- File events of one session: creation, the file events of the body
statements actually executed (all empty — no body statement touches the
speaker file), the `finally` removal, and the post-`finally` statements
(also empty) when the body completed. -/
def sessionTrace (bodyLen : ℕ) (abortAt : Option ℕ) (postLen : ℕ) : List FileEv :=
  [FileEv.create] ++
  (List.replicate (match abortAt with | none => bodyLen | some k => min k bodyLen)
    ([] : List FileEv)).flatten ++
  [FileEv.remove] ++
  (if abortAt = none then (List.replicate postLen ([] : List FileEv)).flatten else [])

/-- `MultilingualVoiceCloner.clone_voice_multilingual`: 3 statements in
the `try` body (parameter set-up, attribute probe, Synthesizer call),
5 after the `finally` (array conversion, `_clean_audio_artifacts`,
optional enhancement, `_minimal_final_cleanup`, output write). -/
def mlSessionTrace (abortAt : Option ℕ) : List FileEv := sessionTrace 3 abortAt 5

/-- `WebSocketFixedHinglishCloner.clone_voice_multilingual`: 1 statement
in the `try` body (the Synthesizer call), 4 after the `finally`. -/
def wsSessionTrace (abortAt : Option ℕ) : List FileEv := sessionTrace 1 abortAt 4

/-- `FixedRealTimeHinglishVoiceCloner.clone_voice_realtime`: the `try`
body is the chunk loop — 5 statements per chunk (progress callback,
Synthesizer call, conversion, `_minimal_audio_cleanup`, `yield` of the
encoded chunk); nothing runs after the `finally` besides a log line. -/
def rtSessionTrace (numChunks : ℕ) (abortAt : Option ℕ) : List FileEv :=
  sessionTrace (5 * numChunks) abortAt 1

/-! # Supporting lemmas -/

/-- `any` over a `filter` whose predicate is implied by the tested one
is `any` over the original list. -/
theorem any_filter_of_imp {p q : Char → Bool} (h : ∀ c, q c = true → p c = true)
    (l : List Char) : (l.filter p).any q = l.any q := by
  induction l with
  | nil => rfl
  | cons c cs ih =>
    by_cases hp : p c = true
    · simp [List.filter_cons, hp, List.any_cons, ih]
    · have hq : q c = false := by
        cases hqc : q c with
        | false => rfl
        | true => exact absurd (h c hqc) hp
      simp [List.filter_cons, hp, List.any_cons, ih, hq]

/-- The token cleaning of the multilingual segmenter preserves the
presence of Devanagari code points. -/
theorem cleanWord_any_isDeva (w : List Char) :
    (cleanWord w).any isDeva = w.any isDeva := by
  refine any_filter_of_imp (fun c hc => ?_) w
  simp [pyIsWord, hc]

/-- The token cleaning of the multilingual segmenter preserves the
presence of Latin letters. -/
theorem cleanWord_any_isLatin (w : List Char) :
    (cleanWord w).any isLatin = w.any isLatin := by
  refine any_filter_of_imp (fun c hc => ?_) w
  simp [pyIsWord, hc]

/-- The multilingual tag agrees with the spec's classification rule
stated on the raw token. -/
theorem mlTag_eq_rule (w : List Char) :
    mlTag w = if w.any isDeva then "hi" else if w.any isLatin then "en" else "hi" := by
  unfold mlTag
  simp only [cleanWord_any_isDeva, cleanWord_any_isLatin]

/-- The Hindi ratio always lies in the unit interval. -/
theorem hindiRatio_bounds (segs : List (List Char × String)) :
    0 ≤ hindiRatio segs ∧ hindiRatio segs ≤ 1 := by
  unfold hindiRatio
  split
  · norm_num
  · rename_i hne
    have hlen : 0 < segs.length := List.length_pos.mpr hne
    have hcount : segs.countP (fun p => p.2 == "hi") ≤ segs.length :=
      List.countP_le_length _
    constructor
    · positivity
    · rw [div_le_one (by exact_mod_cast hlen)]
      exact_mod_cast hcount

/-- `pyStrip` in terms of the Mathlib combinators. -/
theorem pyStrip_eq (l : List Char) :
    pyStrip l = List.rdropWhile pyIsSpace (l.dropWhile pyIsSpace) := rfl

/-- Stripping never lengthens a string. -/
theorem pyStrip_length_le (l : List Char) : (pyStrip l).length ≤ l.length := by
  rw [pyStrip_eq]
  calc (List.rdropWhile pyIsSpace (l.dropWhile pyIsSpace)).length
      ≤ (l.dropWhile pyIsSpace).length :=
        (List.rdropWhile_prefix _ _).length_le
    _ ≤ l.length := lengthDropWhileLe pyIsSpace l

/-- A head-clean list stays head-clean after dropping from the right. -/
theorem dropWhile_rdropWhile (p : Char → Bool) (u : List Char)
    (hu : u.dropWhile p = u) :
    (List.rdropWhile p u).dropWhile p = List.rdropWhile p u := by
  rcases hr : List.rdropWhile p u with _ | ⟨d, rest⟩
  · rfl
  · rw [List.dropWhile_eq_self_iff]
    intro hl hp
    have hpre : List.rdropWhile p u <+: u := List.rdropWhile_prefix p u
    rw [hr] at hpre
    have hu0 : 0 < u.length := by
      have := hpre.length_le
      simp only [List.length_cons] at this
      omega
    have h0 : (0 : ℕ) < (d :: rest).length := by simp
    have hget : (d :: rest).get ⟨0, hl⟩ = u.get ⟨0, hu0⟩ := by
      have hg := @List.IsPrefix.getElem _ (d :: rest) u hpre 0 h0
      simpa [List.get_eq_getElem] using hg
    have := (List.dropWhile_eq_self_iff.mp hu) hu0
    rw [hget] at hp
    exact this hp

/-- Python `strip` is idempotent. -/
theorem pyStrip_idem (l : List Char) : pyStrip (pyStrip l) = pyStrip l := by
  rw [pyStrip_eq, pyStrip_eq]
  rw [dropWhile_rdropWhile pyIsSpace (l.dropWhile pyIsSpace)
    (List.dropWhile_idempotent _ _)]
  exact List.rdropWhile_idempotent _ _

/-- Every element of a waveform is bounded by `npMax`. -/
theorem le_npMax_of_mem {a : ℚ} {l : List ℚ} (h : a ∈ l) : a ≤ npMax l := by
  have haux : ∀ (t : List ℚ) (b : ℚ), b ≤ t.foldl max b ∧ ∀ x ∈ t, x ≤ t.foldl max b := by
    intro t
    induction t with
    | nil => intro b; simp
    | cons y ys ih =>
      intro b
      refine ⟨le_trans (le_max_left b y) (ih (max b y)).1, ?_⟩
      intro x hx
      rcases List.mem_cons.mp hx with rfl | hx
      · exact le_trans (le_max_right b x) (ih (max b x)).1
      · exact (ih (max b y)).2 x hx
  match l, h with
  | b :: t, h =>
    rcases List.mem_cons.mp h with rfl | h
    · exact (haux t a).1
    · exact (haux t b).2 a h

/-- Every sample's magnitude is bounded by `maxAbs`. -/
theorem abs_le_maxAbs {x : ℚ} {l : List ℚ} (h : x ∈ l) : |x| ≤ maxAbs l :=
  le_npMax_of_mem (List.mem_map_of_mem (|·|) h)

/-- `np.clip` into `[-1, 1]` bounds magnitudes by 1. -/
theorem abs_clipQ_le_one (x : ℚ) : |clipQ (-1) 1 x| ≤ 1 := by
  rw [abs_le]
  unfold clipQ
  constructor
  · exact le_min (by norm_num) (le_max_left _ _)
  · exact min_le_left _ _

/-- The short-text branch of the multilingual canonicalizer. -/
theorem optimizeTextShortAux (s : String) (hs : s.toList.length ≤ 20) :
    optimizeText s = String.mk (pyStrip s.toList) := by
  unfold optimizeText optimizeTextML
  rw [if_pos hs]

/-! # Claims -/

/-- C1 (amended).  One `(token, tag)` pair per whitespace token.  The
multilingual segmenter follows the claim in full: every tag is `"hi"`
or `"en"`, a token with a Devanagari code point is `"hi"`, else a token
with a Latin letter is `"en"`, else it defaults to `"hi"`; empty input
gives the empty sequence and ratio 0, and the ratio is in `[0, 1]`.
The realtime variant deviates: its tags range over
`{"hi", "en", "unknown"}`, with `"unknown"` for tokens containing
neither script. -/
theorem segmenter_tags_spec :
    (∀ l : List Char,
      (detectSegmentsML l).length = (splitWs l).length ∧
      ((detectSegmentsML l).all fun p => p.2 == "hi" || p.2 == "en") = true ∧
      ((detectSegmentsML l).all fun p =>
        p.2 == if p.1.any isDeva then "hi"
               else if p.1.any isLatin then "en" else "hi") = true ∧
      0 ≤ hindiRatioML l ∧ hindiRatioML l ≤ 1 ∧
      ((detectSegmentsRT l).all
        fun p => p.2 == "hi" || p.2 == "en" || p.2 == "unknown") = true) ∧
    detectSegmentsML [] = [] ∧ hindiRatioML [] = 0 := by
  refine ⟨fun l => ⟨?_, ?_, ?_, ?_, ?_, ?_⟩, rfl, rfl⟩
  · simp [detectSegmentsML]
  · simp only [detectSegmentsML, List.all_eq_true, List.mem_map]
    rintro p ⟨w, _hw, rfl⟩
    rw [mlTag_eq_rule]
    split
    · simp
    · split <;> simp
  · simp only [detectSegmentsML, List.all_eq_true, List.mem_map]
    rintro p ⟨w, _hw, rfl⟩
    simp only [mlTag_eq_rule, beq_self_eq_true]
  · exact (hindiRatio_bounds _).1
  · exact (hindiRatio_bounds _).2
  · simp only [detectSegmentsRT, List.all_eq_true, List.mem_map]
    rintro p ⟨w, _hw, rfl⟩
    unfold rtTag
    split
    · simp
    · split <;> simp

/-- C1 counterexample.  On the purely numeric token `"123"` the
realtime segmenter emits the tag `"unknown"`, which is neither `"hi"`
nor `"en"`, refuting the claim for
`FixedRealTimeHinglishVoiceCloner.detect_text_language_segments`. -/
theorem segmenter_rt_unknown_tag :
    detectSegmentsRT "123".toList = [("123".toList, "unknown")] ∧
    ("unknown" : String) ≠ "hi" ∧ ("unknown" : String) ≠ "en" := by
  decide

/-- C2 (amended).  On `"Good morning aap kaise hain?"` the pipeline
computes `hindi_ratio = 0`, selects primary language `"en"`, and the
canonicalizer replaces the `?` with a space, yielding
`"Good morning aap kaise hain "` — with a trailing space, because the
final whitespace collapse does not trim the ends. -/
theorem scenarioA_output :
    hindiRatioML "Good morning aap kaise hain?".toList = 0 ∧
    primaryLanguageML "Good morning aap kaise hain?".toList = "en" ∧
    optimizeText "Good morning aap kaise hain?" = "Good morning aap kaise hain " := by
  refine ⟨?_, ?_, ?_⟩ <;> with_unfolding_all decide

/-- C2 counterexample.  The canonicalizer does not return the claimed
string `"Good morning aap kaise hain"`: the `?` becomes a space that is
never stripped. -/
theorem scenarioA_claim_false :
    optimizeText "Good morning aap kaise hain?" ≠ "Good morning aap kaise hain" := by
  with_unfolding_all decide

/-- C4 (amended).  The multilingual canonicalizer is idempotent on
inputs of at most 20 characters, where it reduces to `str.strip`.  For
longer inputs a second application can differ from the first — the
punctuation-to-space replacement can leave edge whitespace that only
the second pass strips (see the counterexample). -/
theorem canonicalizer_idempotent_short (s : String) (hs : s.length ≤ 20) :
    optimizeText (optimizeText s) = optimizeText s := by
  have hlen : s.toList.length ≤ 20 := hs
  rw [optimizeTextShortAux s hlen]
  have hlen₂ : (String.mk (pyStrip s.toList)).toList.length ≤ 20 :=
    le_trans (pyStrip_length_le _) hlen
  rw [optimizeTextShortAux _ hlen₂]
  show String.mk (pyStrip (pyStrip s.toList)) = String.mk (pyStrip s.toList)
  rw [pyStrip_idem]

/-- C4 witness: idempotence at the concrete short input `" hi "`. -/
theorem canonicalizer_idempotent_short_witness :
    optimizeText (optimizeText " hi ") = optimizeText " hi " :=
  canonicalizer_idempotent_short " hi " (by decide)

/-- C4 counterexample.  `optimize_text_for_voice_cloning` is not
idempotent: on `"Good morning friend?!"` (21 characters) one pass gives
`"Good morning friend "` and a second pass strips the trailing space. -/
theorem canonicalizer_not_idempotent :
    optimizeText (optimizeText "Good morning friend?!") ≠
      optimizeText "Good morning friend?!" := by
  with_unfolding_all decide

/-- C5 (amended).  For every input of length at most 20 the
canonicalizer returns `text.strip()`: the short-circuit fires *before*
the whitespace-run collapse, so only the ends are trimmed and inner
whitespace runs survive, and none of the later transforms run. -/
theorem canonicalizer_short_is_strip (s : String) (hs : s.length ≤ 20) :
    optimizeText s = String.mk (pyStrip s.toList) :=
  optimizeTextShortAux s hs

/-- C5 witness: the short-input theorem applied at `"a  b"`. -/
theorem canonicalizer_short_is_strip_witness :
    optimizeText "a  b" = String.mk (pyStrip "a  b".toList) :=
  canonicalizer_short_is_strip "a  b" (by decide)

/-- C5 counterexample.  On the 4-character input `"a  b"` the
canonicalizer returns `"a  b"` unchanged, while the claim (collapse
whitespace runs first, then return) predicts `"a b"`. -/
theorem canonicalizer_short_claim_false :
    optimizeText "a  b" = "a  b" ∧
    String.mk (collapseWs (pyStrip "a  b".toList)) = "a b" ∧
    ("a  b" : String) ≠ "a b" := by
  refine ⟨?_, ?_, ?_⟩ <;> with_unfolding_all decide

/-- C7 (confirmed).  Every Synthesizer invocation in the three
synthesis paths — single-shot multilingual, websocket, and streaming
(one call per chunk of the plan) — passes `split_sentences = False`. -/
theorem ttsCalls_split_sentences_false (text : List Char) (hashMod : ℕ) :
    ((mlTTSCalls text ++ wsTTSCalls text ++ rtTTSCalls hashMod text).all
      fun c => c.splitSentences == false) = true := by
  simp only [List.all_append, Bool.and_eq_true]
  refine ⟨⟨?_, ?_⟩, ?_⟩
  · simp [mlTTSCalls]
  · simp [wsTTSCalls]
  · simp only [rtTTSCalls, List.all_eq_true, List.mem_map, List.mem_filter]
    rintro cl ⟨ch, _hch, rfl⟩
    rfl

/-- Every session trace degenerates to creation followed by the
`finally` removal: no body or post statement touches the speaker file,
and the `finally` clause runs on every exit, including mid-body
exceptions and stream abandonment. -/
theorem sessionTrace_eq_create_remove (bl : ℕ) (ab : Option ℕ) (pl : ℕ) :
    sessionTrace bl ab pl = [FileEv.create, FileEv.remove] := by
  unfold sessionTrace
  have hf : ∀ n : ℕ, (List.replicate n ([] : List FileEv)).flatten = [] := by
    intro n
    induction n with
    | zero => rfl
    | succ m ih => simp [List.replicate_succ, ih]
  rcases ab with _ | k <;> simp [hf]

/-- C8 (confirmed).  After any run of any of the three synthesis entry
points — aborted inside the `try` body at any statement (exception or
stream abandonment) or run to completion — the transient speaker file
no longer exists. -/
theorem speakerFile_removed_all_paths (a b c : Option ℕ) (n : ℕ) :
    fileExistsAfter (mlSessionTrace a) = false ∧
    fileExistsAfter (wsSessionTrace b) = false ∧
    fileExistsAfter (rtSessionTrace n c) = false := by
  unfold mlSessionTrace wsSessionTrace rtSessionTrace
  rw [sessionTrace_eq_create_remove, sessionTrace_eq_create_remove,
    sessionTrace_eq_create_remove]
  exact ⟨rfl, rfl, rfl⟩

/-- C10 (confirmed).  Both minimal audio cleanups return a `None` input
and a zero-length input unchanged, before the `try` block, for every
exception behaviour of the body. -/
theorem minimalCleanup_none_and_empty (f g : Option ℕ) :
    wsMinimalAudioCleanup f none = none ∧
    wsMinimalAudioCleanup f (some []) = some [] ∧
    rtMinimalAudioCleanup g none = none ∧
    rtMinimalAudioCleanup g (some []) = some [] := by
  refine ⟨rfl, ?_, rfl, ?_⟩ <;> simp [wsMinimalAudioCleanup, rtMinimalAudioCleanup]

/-- Whatever statement of `_clean_audio_artifacts` raises, the pass
returns the waveform as processed by the steps already completed —
some stage of its pipeline. -/
theorem cleanArtifacts_stage_aux (filt : List ℚ → List ℚ)
    (failAt : Option ℕ) (audio : List ℚ) :
    ∃ k, cleanAudioArtifacts filt failAt audio = cleanStage filt k audio := by
  by_cases h₁ : failAt = some 1
  · exact ⟨0, by simp [cleanAudioArtifacts, h₁, cleanStage]⟩
  by_cases h₂ : (decide (failAt = some 2) || decide ((dcRemove audio).length ≤ 9)) = true
  · exact ⟨1, by simp only [cleanAudioArtifacts, if_neg h₁, h₂, if_true, cleanStage]⟩
  by_cases h₃ : (decide (failAt = some 3) || decide ((filt (dcRemove audio)).length ≤ 441)) = true
  · exact ⟨2, by simp only [cleanAudioArtifacts, if_neg h₁, h₂, h₃, if_true,
      Bool.false_eq_true, if_false, cleanStage]⟩
  by_cases h₄ : (decide (failAt = some 4) || (energyTrim (filt (dcRemove audio))).isEmpty) = true
  · exact ⟨3, by simp only [cleanAudioArtifacts, if_neg h₁, h₂, h₃, h₄, if_true,
      Bool.false_eq_true, if_false, cleanStage]⟩
  by_cases h₅ : failAt = some 5
  · refine ⟨4, ?_⟩
    simp only [cleanAudioArtifacts, if_neg h₁, h₂, h₃, h₄, if_pos h₅,
      Bool.false_eq_true, if_false, cleanStage]
  · refine ⟨5, ?_⟩
    simp only [cleanAudioArtifacts, if_neg h₁, h₂, h₃, h₄, if_neg h₅,
      Bool.false_eq_true, if_false, cleanStage]

/-- Whatever statement of `_minimal_final_cleanup` raises, the result
is a stage of its pipeline (no exception) or `minimalFallback` of the
stage reached when the exception struck. -/
theorem minimalFinal_stage_aux (failAt : Option ℕ) (audio : List ℚ) :
    ∃ k, minimalFinalCleanup failAt audio = minimalFinalStage k audio ∨
      minimalFinalCleanup failAt audio = minimalFallback (minimalFinalStage k audio) := by
  by_cases h₁ : failAt = some 1
  · exact ⟨0, Or.inr (by simp [minimalFinalCleanup, h₁, minimalFinalStage])⟩
  by_cases h₀ : audio.length = 0
  · exact ⟨0, Or.inl (by simp [minimalFinalCleanup, h₁, h₀, minimalFinalStage])⟩
  by_cases h₂ : failAt = some 2
  · exact ⟨1, Or.inr (by simp only [minimalFinalCleanup, if_neg h₁, if_neg h₀,
      if_pos h₂, minimalFinalStage])⟩
  by_cases h₃ : failAt = some 3
  · exact ⟨2, Or.inr (by simp only [minimalFinalCleanup, if_neg h₁, if_neg h₀,
      if_neg h₂, if_pos h₃, minimalFinalStage])⟩
  by_cases h₄ : failAt = some 4
  · exact ⟨3, Or.inr (by simp only [minimalFinalCleanup, if_neg h₁, if_neg h₀,
      if_neg h₂, if_neg h₃, if_pos h₄, minimalFinalStage])⟩
  · exact ⟨4, Or.inl (by simp only [minimalFinalCleanup, if_neg h₁, if_neg h₀,
      if_neg h₂, if_neg h₃, if_neg h₄, minimalFinalStage])⟩

/-- The websocket `_minimal_audio_cleanup` maps `None` to `None`, and
whatever statement of its body raises, the result is the waveform as
processed by the steps already completed. -/
theorem wsMinimal_stage_aux (failAt : Option ℕ) :
    wsMinimalAudioCleanup failAt none = none ∧
    ∀ audio : List ℚ, ∃ k,
      wsMinimalAudioCleanup failAt (some audio) = some (wsMinimalStage k audio) := by
  refine ⟨rfl, fun audio => ?_⟩
  by_cases h₀ : audio.length = 0
  · exact ⟨0, by simp [wsMinimalAudioCleanup, h₀, wsMinimalStage]⟩
  by_cases h₁ : failAt = some 1
  · exact ⟨0, by simp [wsMinimalAudioCleanup, h₀, h₁, wsMinimalStage]⟩
  by_cases h₂ : failAt = some 2
  · exact ⟨1, by simp only [wsMinimalAudioCleanup, if_neg h₀, if_neg h₁,
      if_pos h₂, wsMinimalStage]⟩
  by_cases h₃ : failAt = some 3
  · exact ⟨2, by simp only [wsMinimalAudioCleanup, if_neg h₀, if_neg h₁,
      if_neg h₂, if_pos h₃, wsMinimalStage]⟩
  · exact ⟨3, by simp only [wsMinimalAudioCleanup, if_neg h₀, if_neg h₁,
      if_neg h₂, if_neg h₃, wsMinimalStage]⟩

/-- C9 (amended).  If any step inside one of the cited
audio-sanitization passes raises an exception, the pass catches it and
the request never fails, but the fallback is not a pass-through of the
raw input: `_clean_audio_artifacts` and the websocket
`_minimal_audio_cleanup` return the waveform as processed by the steps
already completed (the raw input only when the failure precedes the
first transformation), while `_minimal_final_cleanup` returns the
intermediate reached when the exception struck re-normalized to 0.95
peak (unchanged only when that intermediate is empty or silent). -/
theorem sanitizer_exception_fallbacks :
    (∀ (filt : List ℚ → List ℚ) (failAt : Option ℕ) (audio : List ℚ),
      ∃ k, cleanAudioArtifacts filt failAt audio = cleanStage filt k audio) ∧
    (∀ (failAt : Option ℕ) (audio : List ℚ),
      ∃ k, minimalFinalCleanup failAt audio = minimalFinalStage k audio ∨
        minimalFinalCleanup failAt audio = minimalFallback (minimalFinalStage k audio)) ∧
    (∀ failAt : Option ℕ,
      wsMinimalAudioCleanup failAt none = none ∧
      ∀ audio : List ℚ, ∃ k,
        wsMinimalAudioCleanup failAt (some audio) = some (wsMinimalStage k audio)) :=
  ⟨cleanArtifacts_stage_aux, minimalFinal_stage_aux, wsMinimal_stage_aux⟩

/-- C9 counterexample.  On the five-sample waveform `[1,1,1,1,1]` the
high-pass filter necessarily raises (the input is shorter than
`filtfilt`'s pad length), and the `except` branch returns the
DC-removed intermediate `[0,0,0,0,0]`, not the raw input — refuting
"returns the raw input waveform unchanged".  (The filter argument is
never reached on this input.) -/
theorem cleanArtifacts_fallback_not_raw :
    cleanAudioArtifacts (fun l => l) none [1, 1, 1, 1, 1] = [0, 0, 0, 0, 0] ∧
    ([0, 0, 0, 0, 0] : List ℚ) ≠ [1, 1, 1, 1, 1] := by
  refine ⟨?_, ?_⟩ <;> with_unfolding_all decide

/-- Clipping into `[-1, 1]` bounds every sample magnitude by 1. -/
theorem clipAll_abs_le_one {x : ℚ} {l : List ℚ} (h : x ∈ clipAll (-1) 1 l) :
    |x| ≤ 1 := by
  rcases List.mem_map.mp h with ⟨y, _hy, rfl⟩
  exact abs_clipQ_le_one y

/-- The peak-normalization step bounds every sample magnitude by
0.95. -/
theorem normalizeStep_abs_le {a₂ : List ℚ} {x : ℚ}
    (h : x ∈ if maxAbs a₂ > 95 / 100 then a₂.map (· * ((95 / 100) / maxAbs a₂)) else a₂) :
    |x| ≤ 95 / 100 := by
  split at h
  · rename_i hp
    rcases List.mem_map.mp h with ⟨y, hy, rfl⟩
    have hy' : |y| ≤ maxAbs a₂ := abs_le_maxAbs hy
    have hppos : (0 : ℚ) < maxAbs a₂ := lt_trans (by norm_num) hp
    have hcpos : (0 : ℚ) ≤ 95 / 100 / maxAbs a₂ := by positivity
    calc |y * (95 / 100 / maxAbs a₂)| = |y| * (95 / 100 / maxAbs a₂) := by
          rw [abs_mul, abs_of_nonneg hcpos]
      _ ≤ maxAbs a₂ * (95 / 100 / maxAbs a₂) := by
          exact mul_le_mul_of_nonneg_right hy' hcpos
      _ = 95 / 100 := by
          field_simp
          ring
  · rename_i hp
    exact le_trans (abs_le_maxAbs h) (le_of_not_lt hp)

/-- Bounds for the tail of `_final_audio_cleanup` (everything after
the filtered waveform is in hand). -/
theorem finalCleanupRest_abs_le (failAt : Option ℕ) (a₂ : List ℚ) :
    (∀ x ∈ finalCleanupRest failAt a₂, |x| ≤ 1) ∧
    (failAt = none → ∀ x ∈ finalCleanupRest failAt a₂, |x| ≤ 95 / 100) := by
  by_cases h₃ : (decide (failAt = some 3) || a₂.isEmpty) = true
  · refine ⟨fun x hx => ?_, fun hn x hx => ?_⟩
    · rw [finalCleanupRest, if_pos h₃] at hx
      exact clipAll_abs_le_one hx
    · rw [finalCleanupRest, if_pos h₃] at hx
      rw [hn] at h₃
      simp only [Bool.or_eq_true, decide_eq_true_eq] at h₃
      rcases h₃ with h₃ | h₃
      · exact Option.noConfusion h₃
      · rw [List.isEmpty_iff.mp h₃] at hx
        simp [clipAll] at hx
  by_cases h₄ : failAt = some 4
  · refine ⟨fun x hx => ?_, fun hn => absurd h₄ (by rw [hn]; exact fun h => Option.noConfusion h)⟩
    rw [finalCleanupRest, if_neg h₃, if_pos h₄] at hx
    exact clipAll_abs_le_one hx
  by_cases h₅ : failAt = some 5
  · refine ⟨fun x hx => ?_, fun hn => absurd h₅ (by rw [hn]; exact fun h => Option.noConfusion h)⟩
    rw [finalCleanupRest, if_neg h₃, if_neg h₄, if_pos h₅] at hx
    exact clipAll_abs_le_one hx
  · have hval : ∀ x ∈ finalCleanupRest failAt a₂, |x| ≤ 95 / 100 := by
      intro x hx
      rw [finalCleanupRest, if_neg h₃, if_neg h₄, if_neg h₅] at hx
      exact normalizeStep_abs_le hx
    exact ⟨fun x hx => le_trans (hval x hx) (by norm_num), fun _ => hval⟩

/-- Bounds for `_final_audio_cleanup`: every branch (fallbacks
included) keeps magnitudes within 1, and when the pass completes
without raising the bound is 0.95. -/
theorem finalCleanup_abs_le (sqrt : ℚ → ℚ) (filt : List ℚ → List ℚ)
    (failAt : Option ℕ) (audio : List ℚ) :
    (∀ x ∈ finalAudioCleanup sqrt filt failAt audio, |x| ≤ 1) ∧
    (failAt = none → ∀ x ∈ finalAudioCleanup sqrt filt failAt audio, |x| ≤ 95 / 100) := by
  by_cases h₁ : failAt = some 1
  · refine ⟨fun x hx => ?_, fun hn => absurd h₁ (by rw [hn]; exact fun h => Option.noConfusion h)⟩
    rw [finalAudioCleanup, if_pos h₁] at hx
    exact clipAll_abs_le_one hx
  · have hrw : finalAudioCleanup sqrt filt failAt audio =
        finalCleanupRest failAt
          (if (decide (failAt = some 2) ||
              decide ((audio.map (clipQ (npMean audio - 4 * sqrt (pvar audio))
                (npMean audio + 4 * sqrt (pvar audio)))).length ≤ 9)) = true
            then audio.map (clipQ (npMean audio - 4 * sqrt (pvar audio))
              (npMean audio + 4 * sqrt (pvar audio)))
            else filt (audio.map (clipQ (npMean audio - 4 * sqrt (pvar audio))
              (npMean audio + 4 * sqrt (pvar audio))))) := by
      rw [finalAudioCleanup, if_neg h₁]
    rw [hrw]
    exact finalCleanupRest_abs_le failAt _

/-- C3 (amended).  The full sanitization pipeline
(`_clean_audio_artifacts` then `_final_audio_cleanup`) keeps every
sample magnitude within 1 on every path, exception fallbacks included;
the claimed 0.95 bound holds whenever the *final* pass completes
without raising (the final pass's `except` branch only clips to
`[-1, 1]`). -/
theorem sanitizer_output_bounds (sqrt : ℚ → ℚ) (filt₁ filt₂ : List ℚ → List ℚ)
    (fail₁ fail₂ : Option ℕ) (audio : List ℚ) :
    (∀ x ∈ sanitizePipeline sqrt filt₁ filt₂ fail₁ fail₂ audio, |x| ≤ 1) ∧
    (fail₂ = none →
      ∀ x ∈ sanitizePipeline sqrt filt₁ filt₂ fail₁ fail₂ audio, |x| ≤ 95 / 100) :=
  finalCleanup_abs_le sqrt filt₂ fail₂ (cleanAudioArtifacts filt₁ fail₁ audio)

/-- C3 witness: the pipeline theorem applied at identity filters and
the one-sample waveform `[0]`, whose sanitized output contains `0`. -/
theorem sanitizer_output_bounds_witness : |(0 : ℚ)| ≤ 95 / 100 :=
  (sanitizer_output_bounds (fun q => q) (fun l => l) (fun l => l) none none [0]).2
    rfl 0 (by with_unfolding_all decide)

/-- C3 counterexample.  When `_final_audio_cleanup` takes its
exception fallback (modelled by `failAt = some 1`) on the waveform
`[1, -1]`, the output still contains the sample `1`, whose magnitude
exceeds 0.95 — refuting the claim for the exception-fallback
branches. -/
theorem sanitizer_fallback_exceeds_bound :
    (1 : ℚ) ∈ sanitizePipeline (fun q => q) (fun l => l) (fun l => l) none (some 1) [1, -1] ∧
    ¬(|(1 : ℚ)| ≤ 95 / 100) := by
  refine ⟨?_, ?_⟩ <;> with_unfolding_all decide

/-- Folding `max` over zeros from zero stays zero. -/
theorem npMax_replicate_zero (n : ℕ) : npMax (List.replicate n (0 : ℚ)) = 0 := by
  cases n with
  | zero => rfl
  | succ m =>
    show (List.replicate m (0 : ℚ)).foldl max 0 = 0
    induction m with
    | zero => rfl
    | succ k ih =>
      rw [List.replicate_succ, List.foldl_cons, max_self]
      exact ih

/-- A silent waveform has zero peak amplitude. -/
theorem maxAbs_replicate_zero (n : ℕ) : maxAbs (List.replicate n (0 : ℚ)) = 0 := by
  unfold maxAbs
  rw [List.map_replicate, abs_zero, npMax_replicate_zero]

/-- A window of zeros has zero energy. -/
theorem sumSq_replicate_zero (k : ℕ) : sumSq (List.replicate k (0 : ℚ)) = 0 := by
  unfold sumSq
  rw [List.map_replicate]
  norm_num

/-- Every trim frame of a silent waveform has zero mean-square
energy. -/
theorem trimMse_replicate_zero (n i : ℕ) :
    trimMse (List.replicate n (0 : ℚ)) i = 0 := by
  unfold trimMse trimPadded
  rw [← List.replicate_add, ← List.replicate_add, List.drop_replicate,
    List.take_replicate, sumSq_replicate_zero]
  norm_num

/-- `librosa.effects.trim(·, top_db=30)` leaves a silent waveform
unchanged: every frame sits at 0 dB relative to the (clamped) maximum,
so all frames count as non-silent and the kept span is the whole
signal. -/
theorem librosaTrim_replicate_zero (n : ℕ) :
    librosaTrim 30 (List.replicate n (0 : ℚ)) = List.replicate n (0 : ℚ) := by
  unfold librosaTrim
  simp only []
  have hms : ∀ i, trimMse (List.replicate n (0 : ℚ)) i = 0 := trimMse_replicate_zero n
  have hmses : (List.range (trimNFrames (List.replicate n (0 : ℚ)))).map
      (trimMse (List.replicate n (0 : ℚ))) =
      List.replicate (trimNFrames (List.replicate n (0 : ℚ))) (0 : ℚ) := by
    refine List.eq_replicate_iff.mpr ⟨by simp, ?_⟩
    intro b hb
    rcases List.mem_map.mp hb with ⟨i, _hi, rfl⟩
    exact hms i
  rw [hmses, npMax_replicate_zero]
  have hcond : ∀ i, (decide ((max aminQ (trimMse (List.replicate n (0 : ℚ)) i)) ^ 2 *
      10 ^ (2 * 30 / 10) > (max aminQ 0) ^ 2)) = true := by
    intro i
    rw [hms i]
    rw [decide_eq_true_eq]
    have : max aminQ (0 : ℚ) = aminQ := max_eq_left (by norm_num [aminQ])
    rw [this]
    norm_num [aminQ]
  have hfilter : (List.range (trimNFrames (List.replicate n (0 : ℚ)))).filter
      (fun i => decide ((max aminQ (trimMse (List.replicate n (0 : ℚ)) i)) ^ 2 *
        10 ^ (2 * 30 / 10) > (max aminQ 0) ^ 2)) =
      List.range (trimNFrames (List.replicate n (0 : ℚ))) := by
    refine List.filter_eq_self.mpr ?_
    intro i _hi
    exact hcond i
  rw [hfilter]
  have hnf : trimNFrames (List.replicate n (0 : ℚ)) = n / 512 + 1 := by
    unfold trimNFrames
    rw [List.length_replicate]
  rw [hnf]
  have hhead : (List.range (n / 512 + 1)).head? = some 0 := by
    rw [List.range_succ_eq_map]
    rfl
  have hlast : (List.range (n / 512 + 1)).getLast? = some (n / 512) := by
    rw [List.range_succ]
    exact List.getLast?_concat _
  rw [hhead, hlast]
  have hmin : min (List.replicate n (0 : ℚ)).length ((n / 512 + 1) * 512) = n := by
    rw [List.length_replicate]
    have hmod := Nat.div_add_mod n 512
    have hlt : n % 512 < 512 := Nat.mod_lt _ (by norm_num)
    exact min_eq_left (by omega)
  simp only [Nat.zero_mul, List.drop_zero, hmin, Nat.sub_zero]
  rw [List.take_replicate, min_self]

/-- C6 (confirmed).  On an all-zero (silent) reference waveform both
reference-audio preparers skip the peak normalization (no division by
zero) and return the waveform unchanged; the trailing silence trim of
`preprocess_audio` also keeps the full signal, since every frame is at
0 dB relative to the clamped maximum. -/
theorem silent_reference_passthrough (n : ℕ) :
    preprocessAudio (List.replicate n 0) = List.replicate n 0 ∧
    wsReferencePrep (List.replicate n 0) = List.replicate n 0 := by
  constructor
  · unfold preprocessAudio
    rw [maxAbs_replicate_zero]
    simp only [gt_iff_lt, lt_irrefl, if_false]
    exact librosaTrim_replicate_zero n
  · unfold wsReferencePrep
    rw [maxAbs_replicate_zero]
    simp

end VoiceClone
